import Mathlib

/-!
Verification of the asynchronous task-dispatch example application
(`examples/fastapi-app/main.py` and `examples/fastapi-app/tasks.py`).

The HTTP endpoint handlers and the Celery task bodies are embedded
shallowly from the Python source.  The dispatch subsystem itself
(the broker, result store, worker loop and beat scheduler) is provided
by the external Celery/Redis services; its behaviour is modelled from
the specification, and every definition doing so says which component
it models.
-/

namespace FastApiApp

/-! ## Task lifecycle states

The four states of a Task Status Record: PENDING, STARTED, SUCCESS,
FAILURE.  `ready` is Celery's `AsyncResult.ready()`: true exactly in a
terminal state. -/

inductive TaskState : Type where
  | PENDING
  | STARTED
  | SUCCESS
  | FAILURE
deriving Repr, DecidableEq

def TaskState.ready : TaskState → Bool
  | .SUCCESS => true
  | .FAILURE => true
  | _ => false

/-- A Task Status Record as held by the Result Store:
state, optional result, optional error description. -/
structure StatusRecord (V : Type) : Type where
  state : TaskState
  result : Option V
  error : Option String
deriving Repr, DecidableEq

/-! ## Embeddings of the task handlers in `tasks.py` -/

/-- The record returned by `send_email_task` in `tasks.py`:
`{"status": "sent", "email": email, "message": message}`. -/
structure EmailResult : Type where
  status : String
  email : String
  message : String
deriving Repr, DecidableEq

/-- Embeds `send_email_task(email, message)` from `tasks.py` (the `time.sleep`
and `print` calls have no observable effect on the returned value). -/
def send_email_task (email message : String) : EmailResult :=
  { status := "sent", email := email, message := message }

/-- A Python `dict` with string keys, as an association list in
iteration (insertion) order. -/
def PyDict (V : Type) : Type := List (String × V)

/-- Computes `data.keys()` of a Python dict, in the dict's iteration order. -/
def PyDict.keys {V : Type} (d : PyDict V) : List String :=
  d.map Prod.fst

/-- The record returned by `process_data_task` in `tasks.py`:
`{"processed": True, "input_keys": list(data.keys()), "timestamp": time.time()}`. -/
structure ProcResult : Type where
  processed : Bool
  input_keys : List String
  timestamp : Nat
deriving Repr, DecidableEq

/-- Embeds `process_data_task(data)` from `tasks.py`; `now` stands for the
value of `time.time()` at completion. -/
def process_data_task {V : Type} (data : PyDict V) (now : Nat) : ProcResult :=
  { processed := true, input_keys := data.keys, timestamp := now }

/-- The record returned by `periodic_cleanup_task` in `tasks.py`. -/
structure CleanupResult : Type where
  status : String
  cleaned_items : Nat
deriving Repr, DecidableEq

/-- Embeds `periodic_cleanup_task()` from `tasks.py`. -/
def periodic_cleanup_task : CleanupResult :=
  { status := "completed", cleaned_items := 42 }

/-! ## Embeddings of the HTTP endpoint handlers in `main.py` -/

/-- The `TaskRequest` pydantic model in `main.py`. -/
structure TaskRequest : Type where
  email : String
  message : String
deriving Repr, DecidableEq

/-- The `TaskResponse` pydantic model in `main.py`. -/
structure TaskResponse : Type where
  task_id : String
  status : String
deriving Repr, DecidableEq

/-- Endpoint `POST /send-email` in `main.py`: dispatches `send_email_task.delay`
and answers with the generated task id and status `"queued"`.
`tid` stands for the id generated by the dispatch. -/
def send_email (_req : TaskRequest) (tid : String) : TaskResponse :=
  { task_id := tid, status := "queued" }

/-- The response record of `POST /process-data` in `main.py`. -/
structure ProcessDataResponse : Type where
  task_id : String
  status : String
  message : String
deriving Repr, DecidableEq

/-- Endpoint `POST /process-data` in `main.py`: dispatches
`process_data_task.delay(data)` and answers with the generated task id,
status `"processing"` and a fixed message. -/
def process_data {V : Type} (_data : PyDict V) (tid : String) : ProcessDataResponse :=
  { task_id := tid
    status := "processing"
    message := "Data processing started in background" }

/-- The response record of `GET /task/{task_id}` in `main.py`. -/
structure TaskStatusResponse (V : Type) : Type where
  task_id : String
  status : TaskState
  result : Option V
deriving Repr, DecidableEq

/-- Endpoint `GET /task/\x7btask_id\x7d` in `main.py`: builds `AsyncResult(task_id)`
and answers `{task_id, status, result if ready else None}`.  `st` and
`stored` are the state and stored result the backend reports for the id. -/
def get_task_status {V : Type} (task_id : String) (st : TaskState)
    (stored : Option V) : TaskStatusResponse V :=
  { task_id := task_id
    status := st
    result := if st.ready then stored else none }

/-- The outcome of the Redis `ping()` call inside
`check_redis_connection`: either it succeeds or it raises an exception
carrying a message. -/
inductive PingOutcome : Type where
  | ok
  | exn (msg : String)
deriving Repr, DecidableEq

/-- Embeds `check_redis_connection()` from `main.py`: the whole body is inside
`try`, any exception `e` is caught and turned into `f"error: \x7bstr(e)\x7d"`. -/
def check_redis_connection (ping : PingOutcome) : String :=
  match ping with
  | .ok => "connected"
  | .exn msg => "error: " ++ msg

/-- The response record of `GET /health` in `main.py`. -/
structure HealthResponse : Type where
  status : String
  redis : String
  celery : String
deriving Repr, DecidableEq

/-- Endpoint `GET /health` in `main.py`. -/
def health_check (ping : PingOutcome) : HealthResponse :=
  { status := "healthy"
    redis := check_redis_connection ping
    celery := "connected" }

/-! ## The dispatch subsystem

The broker, result store, worker pool and scheduler are provided by
Celery/Redis and are not part of the repository's own source; the
definitions below are modelled from the specification (sections 4.2,
4.4, 4.5, 4.6 and the data-model invariants of section 3). -/

/-- Modelled from the spec: the Result Store (spec 4.2), a key-value
store keyed by task id; `get_status` answers `none` (NotFound) when no
record exists for the id. -/
def Store (V : Type) : Type := String → Option (StatusRecord V)

/-- The empty Result Store: every query answers NotFound. -/
def Store.empty {V : Type} : Store V := fun _ => none

/-- Modelled from the spec: `put_status(task_id, record)` on the Result
Store (spec 4.2); writes are last-write-wins, no merge logic. -/
def Store.put {V : Type} (st : Store V) (tid : String) (r : StatusRecord V) : Store V :=
  fun t => if t = tid then some r else st t

/-- Modelled from the spec: a serialized Task Invocation (spec 3):
task id, task name and arguments. -/
structure Invocation (V : Type) : Type where
  task_id : String
  task_name : String
  args : V

/-- Modelled from the spec: the shared mutable state of the subsystem:
the Result Store and the Message Channel's queue (spec 2, 5). -/
structure SysState (V : Type) : Type where
  store : Store V
  queue : List (Invocation V)

/-- Modelled from the spec: `Dispatcher.submit(task_name, args)`
(spec 4.4): generate a task id (passed in as `tid`), write a PENDING
Task Status Record to the Result Store, enqueue the serialized
invocation on the Message Channel, and return the id to the caller. -/
def Dispatcher.submit {V : Type} (tid nm : String) (args : V) (s : SysState V) :
    String × SysState V :=
  (tid,
    { store := s.store.put tid ⟨.PENDING, none, none⟩
      queue := s.queue ++ [⟨tid, nm, args⟩] })

/-- Modelled from the spec: the Task Registry (spec 4.3), a mapping
from task-name string to handler; a handler either returns a result or
raises an error message. -/
def Registry (V : Type) : Type := String → Option (V → Except String V)

/-- Modelled from the spec: what a worker records for one dequeued
invocation (spec 4.5): resolve the name in the Task Registry, execute
the handler, and produce SUCCESS with the returned result, or FAILURE
with a captured error description if the handler raises or the name is
unknown. -/
def runHandler {V : Type} (reg : Registry V) (inv : Invocation V) : StatusRecord V :=
  match reg inv.task_name with
  | none => ⟨.FAILURE, none, some ("unknown task " ++ inv.task_name)⟩
  | some h =>
    match h inv.args with
    | .ok v => ⟨.SUCCESS, some v, none⟩
    | .error e => ⟨.FAILURE, none, some e⟩

/-- Modelled from the spec: the worker loop (spec 4.5): dequeue an
invocation, transition its record to STARTED, execute the handler, and
record the terminal outcome; a raising handler is caught at the worker
boundary, so the loop always continues with the rest of the queue. -/
def workerLoop {V : Type} (reg : Registry V) (st : Store V) :
    List (Invocation V) → Store V
  | [] => st
  | inv :: rest =>
    workerLoop reg
      ((st.put inv.task_id ⟨.STARTED, none, none⟩).put inv.task_id (runHandler reg inv))
      rest

/-- A demonstration Task Registry holding one handler, `boom`, that
always raises. -/
def demoRegistry : Registry Nat :=
  fun nm => if nm = "boom" then some (fun _ => Except.error "kaboom") else none

/-! ## Status-write traces

The writes the subsystem performs on one Task Status Record are the
Dispatcher's initial PENDING write and a worker's STARTED and terminal
writes; a trace of such events determines the Result Store contents. -/

/-- Modelled from the spec: one status write of the subsystem: the
Dispatcher's submit (spec 4.4 step 2) or a worker's STARTED / terminal
transition (spec 4.5). -/
inductive Event (V : Type) : Type where
  | submit (tid : String)
  | start (tid : String)
  | finish (tid : String) (outcome : Except String V)

/-- The task id an event concerns. -/
def Event.tid {V : Type} : Event V → String
  | .submit t => t
  | .start t => t
  | .finish t _ => t

/-- Modelled from the spec: the Task Status Record each status write
stores (spec 3, 4.4, 4.5): PENDING on submit, STARTED on start,
SUCCESS with the result on normal completion, FAILURE with the error
description and a null result when the handler raises. -/
def Event.record {V : Type} : Event V → StatusRecord V
  | .submit _ => ⟨.PENDING, none, none⟩
  | .start _ => ⟨.STARTED, none, none⟩
  | .finish _ (.ok v) => ⟨.SUCCESS, some v, none⟩
  | .finish _ (.error e) => ⟨.FAILURE, none, some e⟩

/-- Applies one status write to the Result Store. -/
def applyEvent {V : Type} (st : Store V) (e : Event V) : Store V :=
  st.put e.tid e.record

/-- The Result Store contents after a trace of status writes, starting
from the empty store. -/
def runTrace {V : Type} (tr : List (Event V)) : Store V :=
  tr.foldl applyEvent Store.empty

/-- The status writes of a trace that concern a given task id. -/
def tidEvents {V : Type} (tid : String) (tr : List (Event V)) : List (Event V) :=
  tr.filter (fun e => e.tid == tid)

/-- The record a run of status writes leaves for one id, starting from
a prior answer `r0`: the last write wins. -/
def lastWriteFrom {V : Type} (r0 : Option (StatusRecord V)) :
    List (Event V) → Option (StatusRecord V)
  | [] => r0
  | e :: rest => lastWriteFrom (some (Event.record e)) rest

/-- Modelled from the spec: the per-task lifecycle (spec 3 invariants,
4.4, 4.5): the status writes for one task id form a prefix of
submit, start, finish — the id is submitted at most once and its
invocation is logically consumed at most once. -/
def lifecycle {V : Type} (l : List (Event V)) : Prop :=
  l = [] ∨ (∃ a, l = [Event.submit a]) ∨
    (∃ a b, l = [Event.submit a, Event.start b]) ∨
    (∃ a b c o, l = [Event.submit a, Event.start b, Event.finish c o])

/-! ## The Beat scheduler -/

/-- A Schedule Entry (spec 3): task name, period, time of last firing. -/
structure ScheduleEntry : Type where
  task_name : String
  period : Nat
  last_run_at : Nat
deriving Repr, DecidableEq

/-- Modelled from the spec: one Scheduler check at time `now`
(spec 4.6): if `now - last_run_at ≥ period`, submit the task and set
`last_run_at := now`; otherwise do nothing. -/
def beatTick (now : Nat) (e : ScheduleEntry) : Bool × ScheduleEntry :=
  if e.period ≤ now - e.last_run_at then (true, { e with last_run_at := now })
  else (false, e)

/-- Modelled from the spec: the Scheduler loop (spec 4.6) run over a
list of clock readings; yields the submission times and the final
entry. -/
def beatRun (e : ScheduleEntry) : List Nat → List Nat × ScheduleEntry
  | [] => ([], e)
  | t :: ts =>
    let p := beatTick t e
    let rest := beatRun p.2 ts
    (if p.1 then t :: rest.1 else rest.1, rest.2)

/-- The `beat_schedule` table configured in `tasks.py`: one entry,
`cleanup-every-day`, running `tasks.periodic_cleanup_task` every
86400 seconds. -/
def beat_schedule : List (String × String × Nat) :=
  [("cleanup-every-day", "tasks.periodic_cleanup_task", 86400)]

/-! ## Result Store lemmas -/

theorem Store.put_self {V : Type} (st : Store V) (tid : String) (r : StatusRecord V) :
    st.put tid r tid = some r := by
  show (if tid = tid then some r else st tid) = some r
  rw [if_pos rfl]

theorem Store.put_other {V : Type} (st : Store V) (tid t : String) (r : StatusRecord V)
    (h : t ≠ tid) : st.put tid r t = st t := by
  show (if t = tid then some r else st t) = st t
  rw [if_neg h]

/-! ## Trace lemmas -/

theorem foldl_applyEvent_tid {V : Type} (tr : List (Event V)) (st : Store V) (tid : String) :
    (tr.foldl applyEvent st) tid = lastWriteFrom (st tid) (tidEvents tid tr) := by
  induction tr generalizing st with
  | nil => rfl
  | cons e rest ih =>
    rw [List.foldl_cons, ih]
    by_cases h : e.tid = tid
    · have h1 : tidEvents tid (e :: rest) = e :: tidEvents tid rest := by
        simp [tidEvents, h]
      have h2 : applyEvent st e tid = some (Event.record e) := by
        show (if tid = Event.tid e then some (Event.record e) else st tid) = _
        rw [if_pos h.symm]
      rw [h1, h2]
      rfl
    · have h1 : tidEvents tid (e :: rest) = tidEvents tid rest := by
        simp [tidEvents, h]
      have h2 : applyEvent st e tid = st tid := by
        show (if tid = Event.tid e then some (Event.record e) else st tid) = _
        rw [if_neg (fun hc => h hc.symm)]
      rw [h1, h2]

theorem runTrace_tid {V : Type} (tr : List (Event V)) (tid : String) :
    runTrace tr tid = lastWriteFrom none (tidEvents tid tr) :=
  foldl_applyEvent_tid tr Store.empty tid

theorem tidEvents_append {V : Type} (tid : String) (p q : List (Event V)) :
    tidEvents tid (p ++ q) = tidEvents tid p ++ tidEvents tid q := by
  simp [tidEvents]

/-- Claim C2: immediately after `Dispatcher.submit` returns, the Result
Store holds a PENDING record for the submitted id — a query answers
PENDING, never NotFound — and the id has been returned to the caller
with the invocation enqueued on the Message Channel. -/
theorem submit_pending_never_notfound {V : Type} (s : SysState V) (tid nm : String)
    (args : V) :
    (Dispatcher.submit tid nm args s).2.store tid = some ⟨.PENDING, none, none⟩ ∧
    (Dispatcher.submit tid nm args s).2.store tid ≠ none ∧
    (Dispatcher.submit tid nm args s).1 = tid ∧
    (Dispatcher.submit tid nm args s).2.queue = s.queue ++ [⟨tid, nm, args⟩] := by
  have h1 : (Dispatcher.submit tid nm args s).2.store tid = some ⟨.PENDING, none, none⟩ :=
    Store.put_self s.store tid _
  refine ⟨h1, ?_, rfl, rfl⟩
  rw [h1]
  exact fun hc => Option.noConfusion hc

/-- Claim C1: when a submitted invocation's handler runs to completion
(its status writes are submit, start, finish with the returned value),
the queried state is SUCCESS and the result field equals the handler's
return value; for `send_email_task` that value is the record with
status "sent" and the given email and message. -/
theorem handler_success_observed {V : Type} (tr : List (Event V)) (tid : String) (v : V)
    (h : tidEvents tid tr =
      [Event.submit tid, Event.start tid, Event.finish tid (Except.ok v)]) :
    runTrace tr tid = some ⟨.SUCCESS, some v, none⟩ ∧
    (get_task_status tid .SUCCESS (some v)).result = some v ∧
    (∀ e m, send_email_task e m = ⟨"sent", e, m⟩) := by
  refine ⟨?_, rfl, fun e m => rfl⟩
  rw [runTrace_tid, h]
  rfl

/-- Witness for C1: a concrete one-task trace completing an email task. -/
theorem handler_success_observed_witness :
    tidEvents "t1" [Event.submit "t1", Event.start "t1",
        Event.finish "t1" (Except.ok (send_email_task "alice@example.com" "hello"))] =
      [Event.submit "t1", Event.start "t1",
        Event.finish "t1" (Except.ok (send_email_task "alice@example.com" "hello"))] ∧
    runTrace [Event.submit "t1", Event.start "t1",
        Event.finish "t1" (Except.ok (send_email_task "alice@example.com" "hello"))] "t1" =
      some ⟨.SUCCESS, some (send_email_task "alice@example.com" "hello"), none⟩ :=
  ⟨rfl,
   (handler_success_observed
      [Event.submit "t1", Event.start "t1",
        Event.finish "t1" (Except.ok (send_email_task "alice@example.com" "hello"))]
      "t1" (send_email_task "alice@example.com" "hello") rfl).1⟩

/-- Claim C3: a task id with no status record (never submitted, or
expired and hence without writes in the retained trace) queries to
NotFound (`none`), a value distinct from every status record. -/
theorem query_unknown_notfound {V : Type} (tr : List (Event V)) (tid : String)
    (h : tidEvents tid tr = []) :
    runTrace tr tid = none ∧ ∀ r : StatusRecord V, runTrace tr tid ≠ some r := by
  have h1 : runTrace tr tid = none := by rw [runTrace_tid, h]; rfl
  refine ⟨h1, fun r hr => ?_⟩
  rw [h1] at hr
  exact Option.noConfusion hr

/-- Witness for C3: querying an id that never appears in the trace. -/
theorem query_unknown_notfound_witness :
    tidEvents "nonexistent-id" [(Event.submit "t1" : Event Nat)] = [] ∧
    runTrace [(Event.submit "t1" : Event Nat)] "nonexistent-id" = none :=
  ⟨rfl, (query_unknown_notfound [(Event.submit "t1" : Event Nat)] "nonexistent-id" rfl).1⟩

theorem lastWriteFrom_append {V : Type} (r0 : Option (StatusRecord V))
    (l1 l2 : List (Event V)) :
    lastWriteFrom r0 (l1 ++ l2) = lastWriteFrom (lastWriteFrom r0 l1) l2 := by
  induction l1 generalizing r0 with
  | nil => rfl
  | cons e rest ih => exact ih (some (Event.record e))

/-- Under the per-task lifecycle, a trace segment that already left a
terminal record for an id is followed by no further status write for
that id. -/
theorem lifecycle_no_writes_after_terminal {V : Type} (Lp Lq : List (Event V))
    (r : StatusRecord V)
    (hwf : lifecycle (Lp ++ Lq))
    (hterm : lastWriteFrom none Lp = some r)
    (hr : r.state = .SUCCESS ∨ r.state = .FAILURE) :
    Lq = [] := by
  rcases hwf with h0 | ⟨a, h1⟩ | ⟨a, b, h2⟩ | ⟨a, b, c, o, h3⟩
  · exact (List.append_eq_nil.mp h0).2
  · cases Lp with
    | nil => exact Option.noConfusion hterm
    | cons e1 Lp1 =>
      injection h1 with he1 h1
      exact (List.append_eq_nil.mp h1).2
  · cases Lp with
    | nil => exact Option.noConfusion hterm
    | cons e1 Lp1 =>
      injection h2 with he1 h2
      cases Lp1 with
      | nil =>
        subst he1
        injection hterm with hterm
        rcases hr with h | h <;> rw [← hterm] at h <;> exact TaskState.noConfusion h
      | cons e2 Lp2 =>
        injection h2 with he2 h2
        exact (List.append_eq_nil.mp h2).2
  · cases Lp with
    | nil => exact Option.noConfusion hterm
    | cons e1 Lp1 =>
      injection h3 with he1 h3
      cases Lp1 with
      | nil =>
        subst he1
        injection hterm with hterm
        rcases hr with h | h <;> rw [← hterm] at h <;> exact TaskState.noConfusion h
      | cons e2 Lp2 =>
        injection h3 with he2 h3
        cases Lp2 with
        | nil =>
          subst he1 he2
          injection hterm with hterm
          rcases hr with h | h <;> rw [← hterm] at h <;> exact TaskState.noConfusion h
        | cons e3 Lp3 =>
          injection h3 with he3 h3
          exact (List.append_eq_nil.mp h3).2

/-- Claim C5: status writes are monotonic along
PENDING → STARTED → terminal: under the per-task lifecycle, once a
trace prefix leaves a terminal record (SUCCESS or FAILURE) for an id,
the record observed after the whole trace is that same terminal
record — no later write changes it. -/
theorem terminal_state_stable {V : Type} (p q : List (Event V)) (tid : String)
    (r : StatusRecord V)
    (hwf : lifecycle (tidEvents tid (p ++ q)))
    (hterm : runTrace p tid = some r)
    (hr : r.state = .SUCCESS ∨ r.state = .FAILURE) :
    runTrace (p ++ q) tid = some r := by
  have hsplit := tidEvents_append tid p q
  have hq : tidEvents tid q = [] := by
    refine lifecycle_no_writes_after_terminal (tidEvents tid p) (tidEvents tid q) r ?_ ?_ hr
    · rw [← hsplit]; exact hwf
    · rw [← runTrace_tid]; exact hterm
  rw [runTrace_tid, hsplit, hq, List.append_nil, ← runTrace_tid]
  exact hterm

/-- Witness for C5: a completed task's SUCCESS record survives a later
submission of a different task. -/
theorem terminal_state_stable_witness :
    lifecycle (tidEvents "t1"
      ([Event.submit "t1", Event.start "t1", Event.finish "t1" (Except.ok (5 : Nat))] ++
        [Event.submit "t2"])) ∧
    runTrace ([Event.submit "t1", Event.start "t1",
        Event.finish "t1" (Except.ok (5 : Nat))] ++ [Event.submit "t2"]) "t1" =
      some ⟨.SUCCESS, some 5, none⟩ :=
  ⟨Or.inr (Or.inr (Or.inr ⟨"t1", "t1", "t1", Except.ok 5, rfl⟩)),
   terminal_state_stable
     [Event.submit "t1", Event.start "t1", Event.finish "t1" (Except.ok (5 : Nat))]
     [Event.submit "t2"] "t1" ⟨.SUCCESS, some 5, none⟩
     (Or.inr (Or.inr (Or.inr ⟨"t1", "t1", "t1", Except.ok 5, rfl⟩)))
     rfl (Or.inl rfl)⟩

/-! ## Worker loop lemmas -/

theorem workerLoop_append {V : Type} (reg : Registry V) (st : Store V)
    (q1 q2 : List (Invocation V)) :
    workerLoop reg st (q1 ++ q2) = workerLoop reg (workerLoop reg st q1) q2 := by
  induction q1 generalizing st with
  | nil => rfl
  | cons inv rest ih =>
    exact ih ((st.put inv.task_id ⟨.STARTED, none, none⟩).put inv.task_id (runHandler reg inv))

theorem workerLoop_untouched {V : Type} (reg : Registry V) (q : List (Invocation V))
    (st : Store V) (t : String) (h : ∀ j ∈ q, j.task_id ≠ t) :
    workerLoop reg st q t = st t := by
  induction q generalizing st with
  | nil => rfl
  | cons inv rest ih =>
    have hid : t ≠ inv.task_id := Ne.symm (h inv (List.mem_cons_self inv rest))
    have hrest : ∀ j ∈ rest, j.task_id ≠ t := fun j hj => h j (List.mem_cons_of_mem inv hj)
    show workerLoop reg
      ((st.put inv.task_id ⟨.STARTED, none, none⟩).put inv.task_id (runHandler reg inv))
      rest t = st t
    rw [ih _ hrest, Store.put_other _ _ _ _ hid, Store.put_other _ _ _ _ hid]

/-- Claim C4: a handler that raises is caught at the worker boundary:
the worker records FAILURE with a non-null error description and a null
result, and the loop does not terminate — it continues dequeueing the
rest of the queue, so the failing task's record ends up FAILURE. -/
theorem handler_failure_caught {V : Type} (reg : Registry V) (st : Store V)
    (q1 q2 : List (Invocation V)) (inv : Invocation V)
    (f : V → Except String V) (e : String)
    (hfun : reg inv.task_name = some f) (hraise : f inv.args = Except.error e)
    (hfresh : ∀ j ∈ q2, j.task_id ≠ inv.task_id) :
    runHandler reg inv = ⟨.FAILURE, none, some e⟩ ∧
    (runHandler reg inv).error ≠ none ∧
    (runHandler reg inv).result = none ∧
    workerLoop reg st (q1 ++ inv :: q2) =
      workerLoop reg
        (((workerLoop reg st q1).put inv.task_id ⟨.STARTED, none, none⟩).put
          inv.task_id (runHandler reg inv)) q2 ∧
    workerLoop reg st (q1 ++ inv :: q2) inv.task_id = some ⟨.FAILURE, none, some e⟩ := by
  have hrh : runHandler reg inv = ⟨.FAILURE, none, some e⟩ := by
    have hstep : runHandler reg inv =
        match f inv.args with
        | .ok v => ⟨.SUCCESS, some v, none⟩
        | .error err => ⟨.FAILURE, none, some err⟩ := by
      unfold runHandler
      rw [hfun]
    rw [hstep, hraise]
  have hcont : workerLoop reg st (q1 ++ inv :: q2) =
      workerLoop reg
        (((workerLoop reg st q1).put inv.task_id ⟨.STARTED, none, none⟩).put
          inv.task_id (runHandler reg inv)) q2 :=
    workerLoop_append reg st q1 (inv :: q2)
  refine ⟨hrh, ?_, ?_, hcont, ?_⟩
  · rw [hrh]; exact fun hc => Option.noConfusion hc
  · rw [hrh]
  · rw [hcont, workerLoop_untouched reg q2 _ inv.task_id hfresh, Store.put_self, hrh]

/-- Witness for C4: the always-raising handler `boom` is recorded as
FAILURE with its error message while a later invocation is still
processed. -/
theorem handler_failure_caught_witness :
    demoRegistry "boom" = some (fun _ => Except.error "kaboom") ∧
    workerLoop demoRegistry Store.empty
        ([] ++ (⟨"t1", "boom", 0⟩ : Invocation Nat) :: [⟨"t2", "other", 1⟩]) "t1" =
      some ⟨.FAILURE, none, some "kaboom"⟩ :=
  ⟨rfl,
   (handler_failure_caught demoRegistry Store.empty [] [⟨"t2", "other", 1⟩]
      ⟨"t1", "boom", 0⟩ (fun _ => Except.error "kaboom") "kaboom" rfl rfl
      (by decide)).2.2.2.2⟩

/-! ## HTTP endpoint claims -/

/-- Counterexample to claim C6: the data-processing endpoint does not
answer status "queued" on a successful submission — it answers
"processing". -/
theorem process_data_status_not_queued :
    (process_data ([("x", 1)] : PyDict Nat) "task-1").status = "processing" ∧
    (process_data ([("x", 1)] : PyDict Nat) "task-1").status ≠ "queued" :=
  ⟨rfl, by decide⟩

/-- Claim C6 (amended): on successful submission the email endpoint
answers the generated task id with status "queued", while the
data-processing endpoint answers the generated task id with status
"processing" and a fixed message. -/
theorem submission_endpoint_statuses {V : Type} (req : TaskRequest) (data : PyDict V)
    (tid : String) :
    send_email req tid = ⟨tid, "queued"⟩ ∧
    process_data data tid = ⟨tid, "processing", "Data processing started in background"⟩ :=
  ⟨rfl, rfl⟩

/-- Claim C8: the status-query endpoint exposes the stored result only
in a ready (terminal) state; whenever the task is not ready the
response's result field is `none`. -/
theorem task_status_result_gated {V : Type} (tid : String) (st : TaskState)
    (stored : Option V) :
    (st.ready = false → (get_task_status tid st stored).result = none) ∧
    (st.ready = true → (get_task_status tid st stored).result = stored) := by
  constructor <;> intro h <;> simp [get_task_status, h]

/-- Witness for C8: a STARTED task reports no result, a SUCCESS task
reports the stored one. -/
theorem task_status_result_gated_witness :
    (TaskState.STARTED.ready = false ∧
      (get_task_status "t1" .STARTED (some (7 : Nat))).result = none) ∧
    (TaskState.SUCCESS.ready = true ∧
      (get_task_status "t1" .SUCCESS (some (7 : Nat))).result = some 7) :=
  ⟨⟨rfl, (task_status_result_gated "t1" .STARTED (some (7 : Nat))).1 rfl⟩,
   ⟨rfl, (task_status_result_gated "t1" .SUCCESS (some (7 : Nat))).2 rfl⟩⟩

/-- Claim C9: `process_data_task` answers a record with
`processed = true` and `input_keys` equal to the keys of the input
dict, in the dict's iteration order. -/
theorem process_data_task_keys {V : Type} (data : PyDict V) (now : Nat) :
    (process_data_task data now).processed = true ∧
    (process_data_task data now).input_keys = data.keys ∧
    (process_data_task data now).input_keys = data.map Prod.fst :=
  ⟨rfl, rfl, rfl⟩

/-- Claim C10: `check_redis_connection` is total on its error path: for
every outcome of the ping it answers a string — "connected" on success
and "error: " followed by the exception text otherwise — so the health
endpoint always produces its response. -/
theorem check_redis_connection_total (ping : PingOutcome) :
    (check_redis_connection ping = "connected" ∨
      ∃ e, check_redis_connection ping = "error: " ++ e) ∧
    (health_check ping).redis = check_redis_connection ping ∧
    (health_check ping).status = "healthy" ∧
    check_redis_connection PingOutcome.ok = "connected" ∧
    (∀ m, check_redis_connection (PingOutcome.exn m) = "error: " ++ m) := by
  refine ⟨?_, rfl, rfl, rfl, fun m => rfl⟩
  cases ping with
  | ok => exact Or.inl rfl
  | exn msg => exact Or.inr ⟨msg, rfl⟩

/-! ## Scheduler lemmas -/

theorem beatTick_fires (e : ScheduleEntry) (now : Nat)
    (h : e.period ≤ now - e.last_run_at) :
    beatTick now e = (true, { e with last_run_at := now }) := by
  unfold beatTick
  rw [if_pos h]

theorem beatTick_skips (e : ScheduleEntry) (now : Nat)
    (h : now - e.last_run_at < e.period) :
    beatTick now e = (false, e) := by
  unfold beatTick
  rw [if_neg (Nat.not_le.mpr h)]

theorem beatRun_append (e : ScheduleEntry) (ts us : List Nat) :
    beatRun e (ts ++ us) =
      ((beatRun e ts).1 ++ (beatRun (beatRun e ts).2 us).1,
        (beatRun (beatRun e ts).2 us).2) := by
  induction ts generalizing e with
  | nil => rfl
  | cons t ts ih =>
    simp only [List.cons_append, beatRun, List.append_eq]
    rw [ih]
    cases h : (beatTick t e).1 <;> simp

/-- Every pair of consecutive firings of one schedule entry is at least
one period apart, over any sequence of clock readings; the chain starts
at the entry's initial `last_run_at`. -/
theorem beat_chain (ts : List Nat) (e : ScheduleEntry) (hP : 0 < e.period) :
    List.Chain (fun a b => a + e.period ≤ b) e.last_run_at (beatRun e ts).1 := by
  induction ts generalizing e with
  | nil => exact List.Chain.nil
  | cons t ts ih =>
    by_cases hc : e.period ≤ t - e.last_run_at
    · have hfire := beatTick_fires e t hc
      have hrun : (beatRun e (t :: ts)).1 =
          t :: (beatRun { e with last_run_at := t } ts).1 := by
        simp [beatRun, hfire]
      rw [hrun]
      exact List.Chain.cons (by omega) (ih { e with last_run_at := t } hP)
    · have hskip := beatTick_skips e t (Nat.not_le.mp hc)
      have hrun : beatRun e (t :: ts) = beatRun e ts := by
        simp [beatRun, hskip]
      rw [hrun]
      exact ih e hP

/-- Closed form of a continuously running scheduler started at time 0:
after the clock readings 0, 1, ..., n the entry has fired exactly at
the k positive multiples of its period that are at most n. -/
theorem beatRun_range_spec (nm : String) (P : Nat) (hP : 0 < P) (n : Nat) :
    ∃ k, beatRun ⟨nm, P, 0⟩ (List.range (n + 1)) =
        ((List.range k).map (fun i => (i + 1) * P), ⟨nm, P, k * P⟩) ∧
      k * P ≤ n ∧ n < k * P + P := by
  induction n with
  | zero =>
    refine ⟨0, ?_, by omega, by omega⟩
    have hskip := beatTick_skips ⟨nm, P, 0⟩ 0 (show (0 : Nat) - 0 < P by omega)
    simp [List.range_succ, beatRun, hskip]
  | succ n ih =>
    obtain ⟨k, heq, hlo, hhi⟩ := ih
    rw [List.range_succ, beatRun_append, heq]
    by_cases hc : k * P + P ≤ n + 1
    · have hn1 : (k + 1) * P = n + 1 := by
        rw [Nat.succ_mul]
        omega
      have hfire := beatTick_fires ⟨nm, P, k * P⟩ (n + 1)
        (show P ≤ (n + 1) - k * P by omega)
      have hstep : beatRun (⟨nm, P, k * P⟩ : ScheduleEntry) [n + 1] =
          ([n + 1], ⟨nm, P, n + 1⟩) := by
        simp [beatRun, hfire]
      refine ⟨k + 1, ?_, by omega, by omega⟩
      rw [hstep, List.range_succ, List.map_append]
      simp only [List.map_cons, List.map_nil]
      rw [hn1]
    · have hskip := beatTick_skips ⟨nm, P, k * P⟩ (n + 1)
        (show (n + 1) - k * P < P by omega)
      have hstep : beatRun (⟨nm, P, k * P⟩ : ScheduleEntry) [n + 1] =
          ([], ⟨nm, P, k * P⟩) := by
        simp [beatRun, hskip]
      refine ⟨k, ?_, by omega, by omega⟩
      rw [hstep, List.append_nil]

/-- Claim C7: for a schedule entry of period P, no two consecutive
submissions are closer together than P over any clock sequence; a
continuously running scheduler over the times 0..n submits exactly
n / P times (the floor of duration divided by period, hence within one
of the exact ratio); and a tick fires exactly when
now - last_run_at ≥ period, then setting last_run_at := now. -/
theorem scheduler_period_properties (nm : String) (P n : Nat) (hP : 0 < P) :
    (∀ (e : ScheduleEntry) (ts : List Nat), e.period = P →
        List.Chain' (fun a b => a + P ≤ b) (beatRun e ts).1) ∧
    (beatRun ⟨nm, P, 0⟩ (List.range (n + 1))).1.length = n / P ∧
    (∀ (e : ScheduleEntry) (now : Nat), e.period ≤ now - e.last_run_at →
        beatTick now e = (true, { e with last_run_at := now })) ∧
    (∀ (e : ScheduleEntry) (now : Nat), now - e.last_run_at < e.period →
        beatTick now e = (false, e)) := by
  refine ⟨?_, ?_, beatTick_fires, beatTick_skips⟩
  · intro e ts hper
    subst hper
    have h : List.Chain' (fun a b => a + e.period ≤ b)
        (e.last_run_at :: (beatRun e ts).1) := beat_chain ts e hP
    exact h.tail
  · obtain ⟨k, heq, hlo, hhi⟩ := beatRun_range_spec nm P hP n
    rw [heq]
    simp only [List.length_map, List.length_range]
    have h1 : k ≤ n / P := (Nat.le_div_iff_mul_le hP).mpr hlo
    have h2 : n / P < k + 1 := by
      rw [Nat.div_lt_iff_lt_mul hP, Nat.succ_mul]
      omega
    omega

/-- Witness for C7 at the configured cleanup entry: period 86400
seconds over a two-day clock. -/
theorem scheduler_period_properties_witness :
    0 < 86400 ∧
    (beatRun ⟨"tasks.periodic_cleanup_task", 86400, 0⟩
        (List.range (172800 + 1))).1.length = 172800 / 86400 :=
  ⟨by decide,
   (scheduler_period_properties "tasks.periodic_cleanup_task" 86400 172800 (by decide)).2.1⟩

end FastApiApp
